import Mathlib

/-
Shallow embedding of `drive_rag_agent_render.py`.

Strings are modelled as `List Char` (Python strings are sequences of
characters).  Remote collaborators (Drive download/upload, the Gemini
model) are modelled as environment functions returning `Except` values:
`Except.error e` models a Python exception with message `e`, and an
uncaught exception propagates as the `Except.error`/`Option`-error
component of the results below.  Side effects are recorded as an ordered
`Action` trace.
-/

namespace DriveRag

/- ### Chunker: `text[i:i + chunk_size] for i in range(0, len(text), chunk_size)` -/

/-- Fuel-indexed chunking loop; `fuel` bounds the recursion depth.  With
`fuel = s.length` and `0 < size` this computes exactly the Python list
comprehension `[text[i:i+size] for i in range(0, len(text), size)]`. -/
def chunkGo (size : Nat) : Nat → List Char → List (List Char)
  | _, [] => []
  | 0, _ :: _ => []
  | fuel + 1, a :: s => ((a :: s).take size) :: chunkGo size fuel ((a :: s).drop size)

/-- The chunker of `analyze_text_with_gemini` (line 113 of the source):
contiguous slices of `size` characters, the last one possibly shorter. -/
def chunkText (size : Nat) (s : List Char) : List (List Char) :=
  chunkGo size s.length s

/- ### Chunk analyzer: `analyze_text_with_gemini` -/

/-- A remote model collaborator: maps a prompt to the reply text
(`Except.ok`) or to an exception (`Except.error`), as
`gemini.generate_content` does. -/
def GenModel : Type := List Char → Except (List Char) (List Char)

/-- Python `str.strip()` used on the whole text and on model replies.
(Python strips the full Unicode whitespace set; the four ASCII whitespace
characters recognised by `Char.isWhitespace` suffice for this model.) -/
def pyStrip (s : List Char) : List Char :=
  ((s.dropWhile Char.isWhitespace).reverse.dropWhile Char.isWhitespace).reverse

/-- Python truthiness test `not text.strip()`: every character is whitespace. -/
def trimmedEmpty (s : List Char) : Bool :=
  s.all Char.isWhitespace

/-- The fixed notice returned when nothing was extracted (line 111). -/
def analysisNotice : List Char :=
  "⚠️ 無法從文件中擷取任何內容，請確認格式或重新上傳。".data

/-- The prompt built for chunk number `i` (1-based), line 118-128. -/
def promptFor (i : Nat) (chunk : List Char) : List Char :=
  "你是一位資深系統分析師，請針對以下文件片段進行風險審查：\n\n--- 第 ".data
    ++ (toString i).data ++ " 段 ---\n".data ++ chunk
    ++ "\n---\n\n請條列三類事項（繁體中文）：\n1. 🔺 潛在風險\n2. 💡 建議調整\n3. ❓ 需補充釐清\n".data

/-- Record appended on a successful model call for chunk `i` (line 132). -/
def okRecordOf (i : Nat) (reply : List Char) : List Char :=
  "📍 第 ".data ++ (toString i).data ++ " 段分析：\n".data ++ pyStrip reply ++ "\n".data

/-- Record appended when the model call for chunk `i` raised (line 134). -/
def errRecordOf (i : Nat) (e : List Char) : List Char :=
  "❌ 第 ".data ++ (toString i).data ++ " 段錯誤：".data ++ e ++ "\n".data

/-- One iteration of the `for i, chunk in enumerate(chunks, 1)` loop:
try the model, append the success record or the inline error record. -/
def chunkRecord (gen : GenModel) (i : Nat) (chunk : List Char) : List Char :=
  match gen (promptFor i chunk) with
  | Except.ok reply => okRecordOf i reply
  | Except.error e => errRecordOf i e

/-- The `full_response` list built by the loop, in chunk order. -/
def analysisRecords (gen : GenModel) (size : Nat) (text : List Char) : List (List Char) :=
  (chunkText size text).enum.map (fun p => chunkRecord gen (p.1 + 1) p.2)

/-- The prompts sent to the remote model, in call order (one per chunk). -/
def geminiPromptsOf (size : Nat) (text : List Char) : List (List Char) :=
  (chunkText size text).enum.map (fun p => promptFor (p.1 + 1) p.2)

/-- `analyze_text_with_gemini(text, chunk_size)` (lines 109-136).  The
result pairs the returned summary with the trace of prompts actually sent
to the remote model (empty when the early-return on blank text fires). -/
def analyze_text_with_gemini (gen : GenModel) (text : List Char) (chunk_size : Nat) :
    List Char × List (List Char) :=
  if trimmedEmpty text then (analysisNotice, [])
  else
    (List.intercalate "\n\n".data (analysisRecords gen chunk_size text),
     geminiPromptsOf chunk_size text)

/- ### Text extractor: `extract_text_from_file` -/

/-- Parse outcomes for one local file, one per parser the source can
invoke: reading as UTF-8 text, the docx paragraph texts, the pdf page
texts.  `Except.error` models the parser raising an exception. -/
structure FileData where
  readTxt : Except (List Char) (List Char)
  docxParas : Except (List Char) (List (List Char))
  pdfPages : Except (List Char) (List (List Char))

/-- `extract_text_from_file(file_path)` (lines 92-107).  The `.txt` read
and the `.docx` parse are not wrapped in try/except in the source, so
their failures propagate (`Except.error`); the `.pdf` parse failure is
caught and degraded to the empty string; any other extension yields the
empty string after a printed warning. -/
def extract_text_from_file (fd : FileData) (file_path : List Char) :
    Except (List Char) (List Char) :=
  if ".txt".data.isSuffixOf file_path then fd.readTxt
  else if ".docx".data.isSuffixOf file_path then
    match fd.docxParas with
    | Except.ok paras =>
        Except.ok (List.intercalate "\n".data
          (paras.filter (fun p => !(p.all Char.isWhitespace))))
    | Except.error e => Except.error e
  else if ".pdf".data.isSuffixOf file_path then
    match fd.pdfPages with
    | Except.ok pages => Except.ok (List.intercalate "\n".data pages)
    | Except.error _ => Except.ok []
  else Except.ok []

/-- The dispatch branch `extract_text_from_file` takes for a given path,
mirroring its if/elif chain; `unsupported` is the final fallback that
prints the unsupported-format warning. -/
inductive ExtractBranch where
  | txt
  | docx
  | pdf
  | unsupported
deriving DecidableEq

/-- Which branch of the extractor dispatch fires for `file_path`. -/
def extractBranch (file_path : List Char) : ExtractBranch :=
  if ".txt".data.isSuffixOf file_path then ExtractBranch.txt
  else if ".docx".data.isSuffixOf file_path then ExtractBranch.docx
  else if ".pdf".data.isSuffixOf file_path then ExtractBranch.pdf
  else ExtractBranch.unsupported

/- ### Orchestrator: `run_agent` -/

/-- One inbox file as returned by `list_new_files_in_folder`. -/
structure DriveFile where
  id : List Char
  name : List Char

/-- The observable side effects of one run, in order of occurrence. -/
inductive Action where
  | listInbox
  | listOutbox
  | download (name : List Char)
  | extract (path : List Char)
  | geminiCall (prompt : List Char)
  | upload (name : List Char)
  | notify (msg : List Char)
deriving DecidableEq

/-- The external world one run executes against: folder resolution
results, the inbox listing, the outbox listing snapshot, and the fallible
collaborators (download keyed by file id, file parse data keyed by local
path, the model, upload keyed by output name). -/
structure Env where
  inputFolderId : Option (List Char)
  outputFolderId : Option (List Char)
  newFiles : List DriveFile
  outboxNames : List (List Char)
  download : List Char → Except (List Char) Unit
  fileData : List Char → FileData
  gen : GenModel
  upload : List Char → Except (List Char) Unit

/-- The report-name marker `"報告_"` prepended to output names. -/
def reportTag : List Char := "報告_".data

/-- `file_name.endswith((".pdf", ".docx", ".txt"))` from line 173. -/
def supportedSuffix (name : List Char) : Bool :=
  ".pdf".data.isSuffixOf name || ".docx".data.isSuffixOf name
    || ".txt".data.isSuffixOf name

/-- The skip condition of line 173: already-an-output name marker, or an
unsupported extension. -/
def skipByName (name : List Char) : Bool :=
  reportTag.isPrefixOf name || !(supportedSuffix name)

/-- `output_name = f"報告_{file_name}.docx"` from line 177. -/
def outputNameOf (name : List Char) : List Char :=
  reportTag ++ name ++ ".docx".data

/-- `os.path.join(TEMP_FOLDER, file_name)` for the scratch download path. -/
def localPathOf (name : List Char) : List Char :=
  "temp/".data ++ name

/-- The LINE message of line 190. -/
def doneMessageOf (output_name : List Char) : List Char :=
  "✅ 分析完成：".data ++ output_name

/-- The per-file body of the `for file in files` loop (lines 171-190):
the produced actions in order, and `some e` when an uncaught exception
`e` escaped the body (aborting the whole loop).  A file skipped by the
name filter or by the existing-output check contributes nothing. -/
def processFile (env : Env) (outbox : List (List Char)) (file : DriveFile) :
    List Action × Option (List Char) :=
  if skipByName file.name then ([], none)
  else if outputNameOf file.name ∈ outbox then ([], none)
  else
    match env.download file.id with
    | Except.error e => ([], some e)
    | Except.ok _ =>
      match extract_text_from_file (env.fileData (localPathOf file.name))
          (localPathOf file.name) with
      | Except.error e =>
          ([Action.download file.name, Action.extract (localPathOf file.name)], some e)
      | Except.ok text =>
        match env.upload (outputNameOf file.name) with
        | Except.error e =>
            ([Action.download file.name, Action.extract (localPathOf file.name)]
              ++ (analyze_text_with_gemini env.gen text 8000).2.map Action.geminiCall,
             some e)
        | Except.ok _ =>
            ([Action.download file.name, Action.extract (localPathOf file.name)]
              ++ (analyze_text_with_gemini env.gen text 8000).2.map Action.geminiCall
              ++ [Action.upload (outputNameOf file.name),
                  Action.notify (doneMessageOf (outputNameOf file.name))],
             none)

/-- The whole `for file in files` loop: actions accumulate in order and
the first uncaught exception aborts the remaining iterations. -/
def runFiles (env : Env) (outbox : List (List Char)) :
    List DriveFile → List Action × Option (List Char)
  | [] => ([], none)
  | f :: rest =>
    match processFile env outbox f with
    | (acts, some e) => (acts, some e)
    | (acts, none) =>
      let r := runFiles env outbox rest
      (acts ++ r.1, r.2)

/-- The JSON object returned by the webhook handler: either the
`{"error": ...}` dictionary of line 165 or the `{"message": ...}`
dictionary of line 192. -/
inductive RunResult where
  | errorDict (msg : List Char)
  | messageDict (msg : List Char)
deriving DecidableEq

/-- The fixed completion message of line 192. -/
def completionMessage : List Char := "🎉 所有檔案處理完成".data

/-- The fixed missing-folder error message of line 165. -/
def folderErrorMessage : List Char := "❌ 找不到 Google Drive 資料夾".data

/-- `run_agent()` (lines 161-192): resolve both folders, bail out with
the error dictionary if either is missing, otherwise take the inbox and
outbox listings and run the loop.  The first component is the value
returned to FastAPI (`Except.error e` models an uncaught exception
escaping the handler); the second is the ordered action trace. -/
def run_agent (env : Env) : Except (List Char) RunResult × List Action :=
  match env.inputFolderId, env.outputFolderId with
  | some _, some _ =>
    let r := runFiles env env.outboxNames env.newFiles
    (match r.2 with
     | some e => Except.error e
     | none => Except.ok (RunResult.messageDict completionMessage),
     Action.listInbox :: Action.listOutbox :: r.1)
  | _, _ => (Except.ok (RunResult.errorDict folderErrorMessage), [])

/-- The names successfully uploaded during a trace. -/
def uploadsOf (acts : List Action) : List (List Char) :=
  acts.filterMap (fun a =>
    match a with
    | Action.upload n => some n
    | _ => none)

/- ### Chunker lemmas -/

theorem chunkGo_join (size : Nat) (hsize : 0 < size) :
    ∀ (fuel : Nat) (s : List Char), s.length ≤ fuel →
      (chunkGo size fuel s).flatten = s := by
  intro fuel
  induction fuel with
  | zero =>
    intro s hs
    cases s with
    | nil => rfl
    | cons a t => simp at hs
  | succ n ih =>
    intro s hs
    cases s with
    | nil => rfl
    | cons a t =>
      have hs' : t.length + 1 ≤ n + 1 := by simpa using hs
      show ((a :: t).take size :: chunkGo size n ((a :: t).drop size)).flatten = a :: t
      rw [List.flatten_cons,
        ih ((a :: t).drop size) (by simp only [List.length_drop, List.length_cons]; omega)]
      exact List.take_append_drop size (a :: t)

theorem chunkGo_length (size : Nat) (hsize : 0 < size) :
    ∀ (fuel : Nat) (s : List Char), s.length ≤ fuel →
      (chunkGo size fuel s).length = (s.length + size - 1) / size := by
  intro fuel
  induction fuel with
  | zero =>
    intro s hs
    cases s with
    | nil => simp [chunkGo, Nat.div_eq_of_lt (by omega : size - 1 < size)]
    | cons a t => simp at hs
  | succ n ih =>
    intro s hs
    cases s with
    | nil => simp [chunkGo, Nat.div_eq_of_lt (by omega : size - 1 < size)]
    | cons a t =>
      have hs' : t.length + 1 ≤ n + 1 := by simpa using hs
      show ((a :: t).take size :: chunkGo size n ((a :: t).drop size)).length
        = ((a :: t).length + size - 1) / size
      rw [List.length_cons,
        ih ((a :: t).drop size) (by simp only [List.length_drop, List.length_cons]; omega)]
      simp only [List.length_drop, List.length_cons]
      rcases le_or_lt (t.length + 1) size with hle | hlt
      · have h1 : t.length + 1 - size = 0 := by omega
        rw [h1, Nat.zero_add]
        rw [Nat.div_eq_of_lt (by omega : size - 1 < size)]
        rw [Nat.div_eq_of_lt_le (by omega : 1 * size ≤ t.length + 1 + size - 1)
          (by omega : t.length + 1 + size - 1 < (1 + 1) * size)]
      · have h2 : t.length + 1 - size + size - 1 = t.length + 1 - 1 := by omega
        have h3 : t.length + 1 + size - 1 = (t.length + 1 - 1) + size := by omega
        rw [h2, h3, Nat.add_div_right _ hsize, Nat.add_comm]

theorem chunkGo_get (size : Nat) (hsize : 0 < size) :
    ∀ (fuel : Nat) (s : List Char), s.length ≤ fuel →
      ∀ (j : Nat) (hj : j < (chunkGo size fuel s).length),
        (chunkGo size fuel s).get ⟨j, hj⟩ = (s.drop (j * size)).take size := by
  intro fuel
  induction fuel with
  | zero =>
    intro s hs j hj
    cases s with
    | nil => simp [chunkGo] at hj
    | cons a t => simp at hs
  | succ n ih =>
    intro s hs j hj
    cases s with
    | nil => simp [chunkGo] at hj
    | cons a t =>
      have hs' : t.length + 1 ≤ n + 1 := by simpa using hs
      have he : chunkGo size (n + 1) (a :: t)
          = (a :: t).take size :: chunkGo size n ((a :: t).drop size) := rfl
      cases j with
      | zero =>
        simp only [he, List.get, List.drop_zero, Nat.zero_mul]
      | succ j =>
        have hj2 : j < (chunkGo size n ((a :: t).drop size)).length := by
          rw [he, List.length_cons] at hj
          omega
        have hstep : (chunkGo size (n + 1) (a :: t)).get ⟨j + 1, hj⟩
            = (chunkGo size n ((a :: t).drop size)).get ⟨j, hj2⟩ := by
          simp only [he, List.get]
        rw [hstep,
          ih ((a :: t).drop size) (by simp only [List.length_drop, List.length_cons]; omega) j hj2]
        rw [List.drop_drop]
        have harith : size + j * size = (j + 1) * size := by ring
        rw [harith]

/-- Claim C1: for every text `T` and chunk size `S > 0` the chunker's
output is the list of contiguous slices `T[(i-1)*S : min(i*S, len(T))]`
for `i = 1..ceil(len(T)/S)`: concatenating the chunks in index order
reproduces `T` exactly, for non-empty `T` the chunk count equals
`ceil(len(T)/S)`, and the `j`-th chunk (0-based) is exactly
`T.drop (j*S) |>.take S`. -/
theorem chunker_slices_join_count (s : List Char) (size : Nat) (hsize : 0 < size) :
    (chunkText size s).flatten = s
    ∧ (s ≠ [] → (chunkText size s).length = (s.length + size - 1) / size)
    ∧ ∀ (j : Nat) (hj : j < (chunkText size s).length),
        (chunkText size s).get ⟨j, hj⟩ = (s.drop (j * size)).take size := by
  refine ⟨chunkGo_join size hsize s.length s (Nat.le_refl _), ?_, ?_⟩
  · intro _
    exact chunkGo_length size hsize s.length s (Nat.le_refl _)
  · exact chunkGo_get size hsize s.length s (Nat.le_refl _)

/-- Witness for `chunker_slices_join_count` at `T = "abcdefgh"`, `S = 3`
(three chunks `abc`, `def`, `gh`). -/
theorem chunker_slices_join_count_inst :
    (chunkText 3 "abcdefgh".data).flatten = "abcdefgh".data
    ∧ ("abcdefgh".data ≠ [] →
        (chunkText 3 "abcdefgh".data).length = ("abcdefgh".data.length + 3 - 1) / 3)
    ∧ ∀ (j : Nat) (hj : j < (chunkText 3 "abcdefgh".data).length),
        (chunkText 3 "abcdefgh".data).get ⟨j, hj⟩ = ("abcdefgh".data.drop (j * 3)).take 3 :=
  chunker_slices_join_count "abcdefgh".data 3 (by decide)

/- ### Chunk analyzer lemmas -/

theorem analysisRecords_length (gen : GenModel) (size : Nat) (text : List Char) :
    (analysisRecords gen size text).length = (chunkText size text).length := by
  simp [analysisRecords]

theorem analysisRecords_get (gen : GenModel) (size : Nat) (text : List Char)
    (j : Nat) (hj : j < (chunkText size text).length) :
    (analysisRecords gen size text).get
        ⟨j, by rw [analysisRecords_length]; exact hj⟩
      = chunkRecord gen (j + 1) ((chunkText size text).get ⟨j, hj⟩) := by
  simp [analysisRecords, List.get_eq_getElem, List.getElem_map, List.getElem_enum]

/-- Claim C2: for every input text with non-empty trimmed content the
analyzer produces exactly one record per chunk (`full_response` has the
same length as the chunk list), the `j`-th record is tagged with the
1-based index `j + 1` (so the indices are strictly increasing), a failing
model call yields the inline error record for that chunk while the loop
continues (the record for chunk `j` is `chunkRecord`, which maps a model
failure to `errRecordOf` instead of aborting), and the returned summary
is the join of those records in index order. -/
theorem analyzer_record_per_chunk (gen : GenModel) (text : List Char) (size : Nat)
    (h : trimmedEmpty text = false) :
    (analyze_text_with_gemini gen text size).1
      = List.intercalate "\n\n".data (analysisRecords gen size text)
    ∧ (analysisRecords gen size text).length = (chunkText size text).length
    ∧ ∀ (j : Nat) (hj : j < (chunkText size text).length),
        (analysisRecords gen size text).get
            ⟨j, by rw [analysisRecords_length]; exact hj⟩
          = chunkRecord gen (j + 1) ((chunkText size text).get ⟨j, hj⟩) := by
  refine ⟨?_, analysisRecords_length gen size text,
    fun j hj => analysisRecords_get gen size text j hj⟩
  simp [analyze_text_with_gemini, h]

/-- A model collaborator whose every call fails. -/
def genFailAll : GenModel := fun _ => Except.error "E".data

/-- Witness for `analyzer_record_per_chunk` at text `"abc"`, chunk size 2,
with a model that fails on every call. -/
theorem analyzer_record_per_chunk_inst :
    (analyze_text_with_gemini genFailAll "abc".data 2).1
      = List.intercalate "\n\n".data (analysisRecords genFailAll 2 "abc".data)
    ∧ (analysisRecords genFailAll 2 "abc".data).length = (chunkText 2 "abc".data).length
    ∧ ∀ (j : Nat) (hj : j < (chunkText 2 "abc".data).length),
        (analysisRecords genFailAll 2 "abc".data).get
            ⟨j, by rw [analysisRecords_length]; exact hj⟩
          = chunkRecord genFailAll (j + 1) ((chunkText 2 "abc".data).get ⟨j, hj⟩) :=
  analyzer_record_per_chunk genFailAll "abc".data 2 (by decide)

/-- Claim C4: for every input text whose trimmed content is empty, the
analyzer returns the single fixed notice and sends no prompt to the
remote model (the call trace is empty); the result is an ordinary return
value, not an error. -/
theorem empty_text_fixed_notice_no_call (gen : GenModel) (text : List Char) (size : Nat)
    (h : trimmedEmpty text = true) :
    analyze_text_with_gemini gen text size = (analysisNotice, []) := by
  simp [analyze_text_with_gemini, h]

/-- Witness for `empty_text_fixed_notice_no_call` at the whitespace-only
text `"  \n"`. -/
theorem empty_text_fixed_notice_no_call_inst :
    analyze_text_with_gemini genFailAll "  \n".data 8000 = (analysisNotice, []) :=
  empty_text_fixed_notice_no_call genFailAll "  \n".data 8000 (by decide)

/- ### Text extractor lemmas -/

theorem isSuffixOf_append_left (suf pre l : List Char)
    (h : suf.isSuffixOf l = true) : suf.isSuffixOf (pre ++ l) = true := by
  have h' : suf <:+ l := List.isSuffixOf_iff_suffix.mp h
  exact List.isSuffixOf_iff_suffix.mpr (h'.trans (List.suffix_append pre l))

theorem extractBranch_ne_unsupported (p : List Char)
    (h : ".txt".data.isSuffixOf p = true ∨ ".docx".data.isSuffixOf p = true
      ∨ ".pdf".data.isSuffixOf p = true) :
    extractBranch p ≠ ExtractBranch.unsupported := by
  unfold extractBranch
  by_cases h1 : ".txt".data.isSuffixOf p = true
  · simp [h1]
  · by_cases h2 : ".docx".data.isSuffixOf p = true
    · simp [h1, h2]
    · by_cases h3 : ".pdf".data.isSuffixOf p = true
      · simp [h1, h2, h3]
      · rcases h with h | h | h
        · exact absurd h h1
        · exact absurd h h2
        · exact absurd h h3

theorem supported_branch (n : List Char) (h : supportedSuffix n = true) :
    extractBranch (localPathOf n) ≠ ExtractBranch.unsupported := by
  refine extractBranch_ne_unsupported (localPathOf n) ?_
  unfold supportedSuffix at h
  rw [Bool.or_eq_true] at h
  rcases h with h | h
  · rw [Bool.or_eq_true] at h
    rcases h with h | h
    · exact Or.inr (Or.inr (isSuffixOf_append_left ".pdf".data "temp/".data n h))
    · exact Or.inr (Or.inl (isSuffixOf_append_left ".docx".data "temp/".data n h))
  · exact Or.inl (isSuffixOf_append_left ".txt".data "temp/".data n h)

/-- A file whose UTF-8 read raises (for example a non-UTF-8 `.txt`). -/
def badTxtData : FileData :=
  { readTxt := Except.error "read failure".data
    docxParas := Except.ok []
    pdfPages := Except.ok [] }

/-- Counterexample to claim C9 as stated: a read failure on a `.txt`
file is NOT degraded to empty extracted text — `extract_text_from_file`
has no try/except around the `.txt` read (nor around the `.docx` parse),
so the exception escapes to the caller. -/
theorem txt_read_error_escapes :
    extract_text_from_file badTxtData "temp/a.txt".data
      = Except.error "read failure".data
    ∧ extract_text_from_file badTxtData "temp/a.txt".data ≠ Except.ok [] :=
  ⟨rfl, fun hc => Except.noConfusion hc⟩

/-- Amended claim C9: only the `.pdf` parse failure is caught and
degraded to empty extracted text; a `.txt` read failure or a `.docx`
parse failure propagates as an exception to the caller, and an
unsupported extension degrades to empty text (with a logged warning). -/
theorem extract_failure_policy (fd : FileData) (p : List Char) (e : List Char) :
    (".txt".data.isSuffixOf p = true → fd.readTxt = Except.error e →
      extract_text_from_file fd p = Except.error e)
    ∧ (".txt".data.isSuffixOf p = false → ".docx".data.isSuffixOf p = true →
      fd.docxParas = Except.error e →
      extract_text_from_file fd p = Except.error e)
    ∧ (".txt".data.isSuffixOf p = false → ".docx".data.isSuffixOf p = false →
      ".pdf".data.isSuffixOf p = true → fd.pdfPages = Except.error e →
      extract_text_from_file fd p = Except.ok [])
    ∧ (".txt".data.isSuffixOf p = false → ".docx".data.isSuffixOf p = false →
      ".pdf".data.isSuffixOf p = false →
      extract_text_from_file fd p = Except.ok []) := by
  refine ⟨?_, ?_, ?_, ?_⟩
  · intro h1 h2
    simp [extract_text_from_file, h1, h2]
  · intro h1 h2 h3
    simp [extract_text_from_file, h1, h2, h3]
  · intro h1 h2 h3 h4
    simp [extract_text_from_file, h1, h2, h3, h4]
  · intro h1 h2 h3
    simp [extract_text_from_file, h1, h2, h3]

/-- A file on which every parser raises. -/
def fdAllBad : FileData :=
  { readTxt := Except.error "E".data
    docxParas := Except.error "E".data
    pdfPages := Except.error "E".data }

/-- Witness for `extract_failure_policy` on a file where every parser
raises: the `.txt` and `.docx` failures escape, the `.pdf` failure and
the unsupported `.png` extension degrade to empty text. -/
theorem extract_failure_policy_inst :
    extract_text_from_file fdAllBad "a.txt".data = Except.error "E".data
    ∧ extract_text_from_file fdAllBad "a.docx".data = Except.error "E".data
    ∧ extract_text_from_file fdAllBad "a.pdf".data = Except.ok []
    ∧ extract_text_from_file fdAllBad "a.png".data = Except.ok [] :=
  ⟨(extract_failure_policy fdAllBad "a.txt".data "E".data).1 (by decide) rfl,
   (extract_failure_policy fdAllBad "a.docx".data "E".data).2.1
     (by decide) (by decide) rfl,
   (extract_failure_policy fdAllBad "a.pdf".data "E".data).2.2.1
     (by decide) (by decide) (by decide) rfl,
   (extract_failure_policy fdAllBad "a.png".data "E".data).2.2.2
     (by decide) (by decide) (by decide)⟩

/- ### Orchestrator lemmas -/

theorem processFile_skip_name (env : Env) (outbox : List (List Char)) (f : DriveFile)
    (h : skipByName f.name = true) : processFile env outbox f = ([], none) := by
  simp [processFile, h]

theorem processFile_skip_existing (env : Env) (outbox : List (List Char)) (f : DriveFile)
    (h : outputNameOf f.name ∈ outbox) : processFile env outbox f = ([], none) := by
  by_cases h1 : skipByName f.name = true
  · simp [processFile, h1]
  · simp [processFile, h1, h]

theorem uploadsOf_append (a b : List Action) :
    uploadsOf (a ++ b) = uploadsOf a ++ uploadsOf b :=
  List.filterMap_append a b _

theorem uploadsOf_gemini_map (l : List (List Char)) :
    uploadsOf (l.map Action.geminiCall) = [] := by
  induction l with
  | nil => rfl
  | cons x xs ih =>
    simp only [uploadsOf, List.map_cons, List.filterMap_cons] at ih ⊢
    exact ih

theorem runFiles_cons_err (env : Env) (outbox : List (List Char)) (f : DriveFile)
    (rest : List DriveFile) (acts : List Action) (e : List Char)
    (h : processFile env outbox f = (acts, some e)) :
    runFiles env outbox (f :: rest) = (acts, some e) := by
  simp [runFiles, h]

theorem runFiles_cons_ok (env : Env) (outbox : List (List Char)) (f : DriveFile)
    (rest : List DriveFile) (acts : List Action)
    (h : processFile env outbox f = (acts, none)) :
    runFiles env outbox (f :: rest)
      = (acts ++ (runFiles env outbox rest).1, (runFiles env outbox rest).2) := by
  simp [runFiles, h]

theorem processFile_ok_upload (env : Env) (outbox : List (List Char)) (f : DriveFile)
    (acts : List Action)
    (h1 : skipByName f.name = false) (h2 : outputNameOf f.name ∉ outbox)
    (h3 : processFile env outbox f = (acts, none)) :
    outputNameOf f.name ∈ uploadsOf acts := by
  unfold processFile at h3
  rw [if_neg (by simp [h1]), if_neg h2] at h3
  cases hd : env.download f.id with
  | error e => rw [hd] at h3; simp at h3
  | ok u =>
    rw [hd] at h3
    cases he : extract_text_from_file (env.fileData (localPathOf f.name))
        (localPathOf f.name) with
    | error e => rw [he] at h3; simp at h3
    | ok text =>
      rw [he] at h3
      cases hu : env.upload (outputNameOf f.name) with
      | error e => rw [hu] at h3; simp at h3
      | ok u2 =>
        rw [hu] at h3
        have hacts : acts
            = [Action.download f.name, Action.extract (localPathOf f.name)]
              ++ (analyze_text_with_gemini env.gen text 8000).2.map Action.geminiCall
              ++ [Action.upload (outputNameOf f.name),
                  Action.notify (doneMessageOf (outputNameOf f.name))] := by
          have := congrArg Prod.fst h3
          exact this.symm
        rw [hacts, uploadsOf_append, uploadsOf_append]
        apply List.mem_append_right
        simp [uploadsOf, List.filterMap_cons]

theorem processFile_env_outbox_only (env : Env) (x outbox : List (List Char))
    (f : DriveFile) :
    processFile { env with outboxNames := x } outbox f = processFile env outbox f := rfl

theorem runFiles_env_outbox_only (env : Env) (x outbox : List (List Char)) :
    ∀ files, runFiles { env with outboxNames := x } outbox files
      = runFiles env outbox files := by
  intro files
  induction files with
  | nil => rfl
  | cons f rest ih =>
    unfold runFiles
    rw [processFile_env_outbox_only, ih]

theorem run_agent_trace (env : Env) (i o : List Char)
    (hi : env.inputFolderId = some i) (ho : env.outputFolderId = some o) :
    (run_agent env).2 = Action.listInbox :: Action.listOutbox
      :: (runFiles env env.outboxNames env.newFiles).1 := by
  unfold run_agent
  rw [hi, ho]

theorem runFiles_no_new_uploads (env : Env) (outbox outbox2 : List (List Char))
    (hsub : ∀ x, x ∈ outbox → x ∈ outbox2) :
    ∀ files, (runFiles env outbox files).2 = none →
      (∀ u, u ∈ uploadsOf (runFiles env outbox files).1 → u ∈ outbox2) →
      uploadsOf (runFiles env outbox2 files).1 = [] := by
  intro files
  induction files with
  | nil =>
    intro _ _
    rfl
  | cons f rest ih =>
    intro hok hup
    rcases hpf : processFile env outbox f with ⟨a1, e1⟩
    cases e1 with
    | some e =>
      rw [runFiles_cons_err env outbox f rest a1 e hpf] at hok
      simp at hok
    | none =>
      have hok' : (runFiles env outbox rest).2 = none := by
        rw [runFiles_cons_ok env outbox f rest a1 hpf] at hok
        exact hok
      have hup' : ∀ u, u ∈ uploadsOf a1 ++ uploadsOf (runFiles env outbox rest).1 →
          u ∈ outbox2 := by
        intro u hu
        apply hup u
        rw [runFiles_cons_ok env outbox f rest a1 hpf]
        show u ∈ uploadsOf (a1 ++ (runFiles env outbox rest).1)
        rw [uploadsOf_append]
        exact hu
      have hskip2 : processFile env outbox2 f = ([], none) := by
        cases hs : skipByName f.name with
        | true => exact processFile_skip_name env outbox2 f hs
        | false =>
          by_cases hmem : outputNameOf f.name ∈ outbox
          · exact processFile_skip_existing env outbox2 f (hsub _ hmem)
          · have hupl : outputNameOf f.name ∈ uploadsOf a1 :=
              processFile_ok_upload env outbox f a1 hs hmem hpf
            exact processFile_skip_existing env outbox2 f
              (hup' _ (List.mem_append_left _ hupl))
      rw [runFiles_cons_ok env outbox2 f rest [] hskip2]
      show uploadsOf ([] ++ (runFiles env outbox2 rest).1) = []
      rw [List.nil_append]
      exact ih hok' (fun u hu => hup' u (List.mem_append_right _ hu))

/- ### Concrete environments used by witnesses and counterexamples -/

/-- A run with one well-formed `.txt` inbox file and an empty outbox. -/
def envOneTxt : Env :=
  { inputFolderId := some "inbox-id".data
    outputFolderId := some "outbox-id".data
    newFiles := [⟨"f1".data, "spec.txt".data⟩]
    outboxNames := []
    download := fun _ => Except.ok ()
    fileData := fun _ =>
      { readTxt := Except.ok "Risk: none.".data
        docxParas := Except.ok []
        pdfPages := Except.ok [] }
    gen := fun _ => Except.ok "ok".data
    upload := fun _ => Except.ok () }

/-- A run whose folders resolve but whose inbox listing is empty. -/
def envIdle : Env :=
  { inputFolderId := some "inbox-id".data
    outputFolderId := some "outbox-id".data
    newFiles := []
    outboxNames := []
    download := fun _ => Except.ok ()
    fileData := fun _ =>
      { readTxt := Except.ok []
        docxParas := Except.ok []
        pdfPages := Except.ok [] }
    gen := fun _ => Except.ok "ok".data
    upload := fun _ => Except.ok () }

/-- A run in which neither folder name resolves. -/
def envNoFolders : Env :=
  { inputFolderId := none
    outputFolderId := none
    newFiles := [⟨"f1".data, "spec.txt".data⟩]
    outboxNames := []
    download := fun _ => Except.ok ()
    fileData := fun _ =>
      { readTxt := Except.ok "Risk: none.".data
        docxParas := Except.ok []
        pdfPages := Except.ok [] }
    gen := fun _ => Except.ok "ok".data
    upload := fun _ => Except.ok () }

/-- A run with two candidates in which the first file's docx parse
raises and the second file is well-formed. -/
def envTwoFiles : Env :=
  { inputFolderId := some "inbox-id".data
    outputFolderId := some "outbox-id".data
    newFiles := [⟨"f1".data, "a.docx".data⟩, ⟨"f2".data, "b.txt".data⟩]
    outboxNames := []
    download := fun _ => Except.ok ()
    fileData := fun p =>
      if p = localPathOf "a.docx".data then
        { readTxt := Except.ok []
          docxParas := Except.error "bad docx".data
          pdfPages := Except.ok [] }
      else
        { readTxt := Except.ok "hello".data
          docxParas := Except.ok []
          pdfPages := Except.ok [] }
    gen := fun _ => Except.ok "fine".data
    upload := fun _ => Except.ok () }

/- ### Claims C5, C10, C8, C7, C3, C6 -/

/-- Claim C5: an inbox file whose name starts with the report marker
`"報告_"`, or whose name does not end in `.pdf`, `.docx` or `.txt`, is
discarded by the skip filter before any pipeline step: its loop
iteration performs no action at all (no download, extraction, model
call, upload or notification) and raises nothing. -/
theorem skip_filter_discards (env : Env) (outbox : List (List Char)) (f : DriveFile)
    (h : reportTag.isPrefixOf f.name = true ∨ supportedSuffix f.name = false) :
    processFile env outbox f = ([], none) := by
  have hs : skipByName f.name = true := by
    unfold skipByName
    rcases h with h | h
    · simp [h]
    · simp [h]
  exact processFile_skip_name env outbox f hs

/-- Witness for `skip_filter_discards` on a report-named file and on an
unsupported `.png` file. -/
theorem skip_filter_discards_inst :
    processFile envOneTxt [] ⟨"f9".data, "報告_spec.txt".data⟩ = ([], none)
    ∧ processFile envOneTxt [] ⟨"f8".data, "image.png".data⟩ = ([], none) :=
  ⟨skip_filter_discards envOneTxt [] ⟨"f9".data, "報告_spec.txt".data⟩
      (Or.inl (by decide)),
   skip_filter_discards envOneTxt [] ⟨"f8".data, "image.png".data⟩
      (Or.inr (by decide))⟩

/-- Claim C10: whenever the orchestrator's loop body actually invokes
text extraction (an `Action.extract p` appears in its trace), the path
`p` it passes — `temp/` joined with a file name that passed the skip
filter's suffix check — ends in one of the three suffixes the extractor
dispatches on, so the extractor's unsupported-format fallback branch is
unreachable for orchestrator-invoked extraction. -/
theorem orchestrator_extraction_supported (env : Env) (outbox : List (List Char))
    (f : DriveFile) (p : List Char)
    (hp : Action.extract p ∈ (processFile env outbox f).1) :
    extractBranch p ≠ ExtractBranch.unsupported := by
  by_cases h1 : skipByName f.name = true
  · rw [processFile_skip_name env outbox f h1] at hp
    simp at hp
  · have h1' : skipByName f.name = false := by
      revert h1
      cases skipByName f.name <;> simp
    by_cases h2 : outputNameOf f.name ∈ outbox
    · rw [processFile_skip_existing env outbox f h2] at hp
      simp at hp
    · have hsup : supportedSuffix f.name = true := by
        cases hsx : supportedSuffix f.name with
        | true => rfl
        | false =>
          exfalso
          rw [skipByName, hsx] at h1'
          simp at h1'
      have hploc : p = localPathOf f.name := by
        unfold processFile at hp
        rw [if_neg (by simp [h1']), if_neg h2] at hp
        cases hd : env.download f.id with
        | error e =>
          rw [hd] at hp
          simp at hp
        | ok u =>
          rw [hd] at hp
          cases he : extract_text_from_file (env.fileData (localPathOf f.name))
              (localPathOf f.name) with
          | error e =>
            rw [he] at hp
            simp at hp
            exact hp
          | ok text =>
            rw [he] at hp
            cases hu : env.upload (outputNameOf f.name) with
            | error e =>
              rw [hu] at hp
              simp at hp
              exact hp
            | ok u2 =>
              rw [hu] at hp
              simp at hp
              exact hp
      rw [hploc]
      exact supported_branch f.name hsup

/-- Witness for `orchestrator_extraction_supported`: the one candidate
of `envOneTxt` is extracted at `temp/spec.txt`, a supported path. -/
theorem orchestrator_extraction_supported_inst :
    extractBranch (localPathOf "spec.txt".data) ≠ ExtractBranch.unsupported :=
  orchestrator_extraction_supported envOneTxt [] ⟨"f1".data, "spec.txt".data⟩
    (localPathOf "spec.txt".data) (by decide)

/-- Claim C8: when either folder fails to resolve, the run returns the
error dictionary at once and performs no side effect at all — the action
trace is empty, so neither listing is consumed and nothing is
downloaded, extracted, analyzed, uploaded or notified. -/
theorem missing_folder_no_side_effects (env : Env)
    (h : env.inputFolderId = none ∨ env.outputFolderId = none) :
    run_agent env = (Except.ok (RunResult.errorDict folderErrorMessage), []) := by
  unfold run_agent
  cases hi : env.inputFolderId with
  | none => rfl
  | some i =>
    cases ho : env.outputFolderId with
    | none => rfl
    | some o =>
      exfalso
      rcases h with h | h
      · rw [hi] at h
        exact Option.noConfusion h
      · rw [ho] at h
        exact Option.noConfusion h

/-- Witness for `missing_folder_no_side_effects` at a run whose folders
are both unresolved but whose inbox would have had a candidate. -/
theorem missing_folder_no_side_effects_inst :
    run_agent envNoFolders = (Except.ok (RunResult.errorDict folderErrorMessage), []) :=
  missing_folder_no_side_effects envNoFolders (Or.inl rfl)

/-- Counterexample to claim C7 as stated: a run that processes and
uploads a file and a run that has nothing at all to do return the very
same webhook value, so the "nothing to do" outcome is NOT distinguishable
from the completion summary. -/
theorem same_response_nothing_vs_processed :
    (run_agent envIdle).1 = (run_agent envOneTxt).1
    ∧ uploadsOf (run_agent envOneTxt).2 = [outputNameOf "spec.txt".data]
    ∧ uploadsOf (run_agent envIdle).2 = [] :=
  ⟨rfl, rfl, rfl⟩

/-- Amended claim C7: the webhook distinguishes only two outcomes — the
folders-missing error dictionary, and one fixed completion message that
is returned whenever both folders resolve and the loop raises nothing,
whether or not any candidate survived the filter; there is no separate
"nothing to process" response. -/
theorem completion_response_fixed (env : Env) (i o : List Char)
    (hi : env.inputFolderId = some i) (ho : env.outputFolderId = some o)
    (hok : (runFiles env env.outboxNames env.newFiles).2 = none) :
    (run_agent env).1 = Except.ok (RunResult.messageDict completionMessage) := by
  unfold run_agent
  rw [hi, ho]
  simp [hok]

/-- Witness for `completion_response_fixed` at the idle run (folders
resolve, no candidates): the fixed completion message is returned. -/
theorem completion_response_fixed_inst :
    (run_agent envIdle).1 = Except.ok (RunResult.messageDict completionMessage) :=
  completion_response_fixed envIdle "inbox-id".data "outbox-id".data rfl rfl rfl

/-- Claim C3: an inbox file whose expected output name already sits in
the outbox snapshot contributes no action at all (no download, no model
call, no upload); consequently, after a run that completed without an
uncaught exception, running again with the same inbox listing and an
outbox extended only by the first run's own uploads uploads nothing. -/
theorem orchestrator_idempotent (env : Env) (i o : List Char)
    (hi : env.inputFolderId = some i) (ho : env.outputFolderId = some o)
    (hok : (runFiles env env.outboxNames env.newFiles).2 = none) :
    (∀ (outbox : List (List Char)) (f : DriveFile),
        outputNameOf f.name ∈ outbox → processFile env outbox f = ([], none))
    ∧ uploadsOf (run_agent
        { env with outboxNames := env.outboxNames ++ uploadsOf (run_agent env).2 }).2
      = [] := by
  constructor
  · intro outbox f hmem
    exact processFile_skip_existing env outbox f hmem
  · have hu1 : uploadsOf (run_agent env).2
        = uploadsOf (runFiles env env.outboxNames env.newFiles).1 := by
      rw [run_agent_trace env i o hi ho]
      rfl
    have hr2 := run_agent_trace
      { env with outboxNames := env.outboxNames ++ uploadsOf (run_agent env).2 }
      i o hi ho
    rw [hr2, runFiles_env_outbox_only]
    show uploadsOf (runFiles env (env.outboxNames ++ uploadsOf (run_agent env).2)
      env.newFiles).1 = []
    apply runFiles_no_new_uploads env env.outboxNames
      (env.outboxNames ++ uploadsOf (run_agent env).2)
      (fun x hx => List.mem_append_left _ hx) env.newFiles hok
    intro u hu
    apply List.mem_append_right
    rw [hu1]
    exact hu

/-- Witness for `orchestrator_idempotent` at the one-candidate run
`envOneTxt`: the first run uploads `報告_spec.txt.docx`; a second run
against the grown outbox uploads nothing. -/
theorem orchestrator_idempotent_inst :
    (∀ (outbox : List (List Char)) (f : DriveFile),
        outputNameOf f.name ∈ outbox → processFile envOneTxt outbox f = ([], none))
    ∧ uploadsOf (run_agent
        { envOneTxt with outboxNames :=
            envOneTxt.outboxNames ++ uploadsOf (run_agent envOneTxt).2 }).2
      = [] :=
  orchestrator_idempotent envOneTxt "inbox-id".data "outbox-id".data rfl rfl rfl

/-- Claim C6 fails on the code (the loop body has no try/except): in
`envTwoFiles` the docx parse failure of the first candidate escapes the
loop as an uncaught exception, the webhook call errors out, and the
second candidate is never downloaded, analyzed or uploaded. -/
theorem docx_fault_aborts_whole_run :
    run_agent envTwoFiles
      = (Except.error "bad docx".data,
         [Action.listInbox, Action.listOutbox,
          Action.download "a.docx".data, Action.extract (localPathOf "a.docx".data)])
    ∧ (∀ a, a ∈ (run_agent envTwoFiles).2 →
        a ≠ Action.download "b.txt".data
        ∧ a ≠ Action.upload (outputNameOf "b.txt".data)) :=
  ⟨rfl, by decide⟩

end DriveRag
